import Mathlib

/-!
Verification of the chat-with-your-database interactive loop (`src/app.py`).

The program is a single REPL (`main`): it reads a natural-language query,
computes an embedding, issues a hybrid search (top 3, k = 50) against a
schema index, fetches each retrieved table's schema, aggregates the schemas
into a bullet list, asks a chat model for one SQL statement, appends the
(user question, assistant answer) pair to the conversation history, and then
optionally executes the SQL if the operator answers "yes".

The external collaborators (embedding service, search index, SQL database,
chat model) are modelled as oracle functions collected in an `Env`; calls
that the source does not guard are modelled as `Except`-returning functions.
One iteration of the `while True` loop is the pure function `loopStep`,
which also returns the list of collaborator calls made (`CallEvent`), so
that "component X was not invoked" is a statement about the trace.
-/

/-- One entry of the conversation history: a `{"role": ..., "content": ...}`
dictionary in the source. -/
structure Msg where
  role : String
  content : String
deriving DecidableEq, Repr

/-- `system_message` from `app.py` (lines 51-53). -/
def system_message : String :=
  "You are an expert in SQL database querying and are assisting a Data Engineer."

/-- `conversation_history = [{"role": "system", "content": system_message}]`
(line 54): the single system turn inserted once at startup. -/
def initial_conversation_history : List Msg :=
  [⟨"system", system_message⟩]

/-- Python's `sep.join(list)`. -/
def joinSep (sep : String) : List String → String
  | [] => ""
  | [s] => s
  | s :: rest => s ++ sep ++ joinSep sep rest

/-- The Schema Aggregator (lines 85-89): map `process_schema` over the
retrieved table names and build `'- ' + "\n\n- ".join(schema_list)`. -/
def aggregate (process_schema : String → String) (table_list : List String) : String :=
  "- " ++ joinSep "\n\n- " (table_list.map (fun x => process_schema x))

/-- Python's `s.lower()`: lowercase every character. -/
def pyLower (s : String) : String :=
  ⟨s.data.map Char.toLower⟩

/-- Python's `s.strip()`: drop whitespace from both ends. -/
def pyStrip (s : String) : String :=
  ⟨(((s.data.dropWhile Char.isWhitespace).reverse).dropWhile Char.isWhitespace).reverse⟩

/-- `get_run_query_decision` (lines 19-24): the operator's raw line with
surrounding whitespace stripped and lowercased. -/
def get_run_query_decision (raw : String) : String :=
  pyLower (pyStrip raw)

/-- The exit test of line 59: `user_query.lower() in ["exit", "quit"]`.
Lowercases the raw line, no trimming, exact membership. -/
def isExitCommand (user_query : String) : Bool :=
  (["exit", "quit"] : List String).contains (pyLower user_query)

/-- The f-string prompt of lines 90-105, with `user_query` and `schema_str`
interpolated at the same places as in the source (including the literal
indentation of the triple-quoted string). -/
def buildPrompt (user_query schema_str : String) : String :=
  "Based on the multiple database schemas below, first\n        select the best database schema based on the query "
    ++ user_query
    ++ " and\n        then return the answer in the following formats to run my queries using the odbc python client:\n\n        ## Example 1:\n        SELECT col\n        FROM table_a\n        WHERE col2 = \x27string\x27\n\n        ## Example 2:\n        SELECT col, col4\n        FROM table_c\n        WHERE col3 = 1\n\n        Provide only the query and nothing else, avoiding any conversational fluff.\n        \n\nSchemas:\n "
    ++ schema_str
    ++ "\n\n---\n\nQuestion: "
    ++ user_query
    ++ "\nAnswer:"

/-- The search request built at lines 65-74: positional query text plus
`top=3`, a `RawVectorQuery(vector=..., k=50, fields="table_vector")`, and
the semantic-rerank configuration. -/
structure SearchRequest where
  query_text : String
  top : Nat
  vector : List Rat
  k : Nat
  fields : String
  query_type : String
  semantic_configuration_name : String
  query_language : String
deriving DecidableEq, Repr

/-- The concrete request `main` sends for a query and its embedding. -/
def mkSearchRequest (user_query : String) (search_vector : List Rat) : SearchRequest where
  query_text := user_query
  top := 3
  vector := search_vector
  k := 50
  fields := "table_vector"
  query_type := "semantic"
  semantic_configuration_name := "query-index-semantic-config"
  query_language := "en-us"

/-- One search hit: the loop reads `doc["table_name"]` and
`doc["@search.score"]` (lines 78-83). Scores are modelled as rationals. -/
structure SearchDoc where
  table_name : String
  score : Rat
deriving DecidableEq, Repr

/-- One database row; `execute_and_fetch` guarantees `row[0]` is printable,
so a row is its first column plus the remaining columns. -/
structure Row where
  first : String
  rest : List String
deriving DecidableEq, Repr

/-- `pretty_print_results` (lines 27-32): the per-row lines printed on a
successful execution, `f"- {result[0]}"` for each row. -/
def pretty_print_results (results : List Row) : List String :=
  results.map (fun result => "- " ++ result.first)

/-- The error message logged at lines 123-126 when execution raises. -/
def execution_error_message (e : String) : String :=
  "\nThere seems to be an issue with this query. Please verify the query.\n" ++ e

/-- The external collaborators of `main`.  Calls the source leaves unguarded
(`generate_embedding`, `search`, `generate_chat_response`,
`execute_and_fetch`) may fail; `process_schema` has no specified failure
mode and is total. -/
structure Env where
  generate_embedding : String → Except String (List Rat)
  search : SearchRequest → Except String (List SearchDoc)
  process_schema : String → String
  generate_chat_response :
    List Msg → String → String → Nat → Except String String
  execute_and_fetch : String → Except String (List Row)

/-- A collaborator call made during one loop iteration. -/
inductive CallEvent where
  | embedCall (text : String)
  | searchCall (req : SearchRequest)
  | schemaCall (table : String)
  | chatCall (history : List Msg) (prompt : String)
  | executeCall (sql : String)
deriving DecidableEq, Repr

/-- Outcome of the execution branch of one iteration. -/
inductive ExecOutcome where
  | skipped
  | succeeded (printed : List String)
  | failed (logged : String)
deriving DecidableEq, Repr

/-- Result of one iteration of the `while True` loop. -/
inductive StepResult where
  | exited (history : List Msg)
  | aborted (history : List Msg) (err : String)
  | completed (history : List Msg) (content : String) (outcome : ExecOutcome)
deriving DecidableEq, Repr

/-- The conversation history held after the iteration. -/
def StepResult.historyOf : StepResult → List Msg
  | .exited h => h
  | .aborted h _ => h
  | .completed h _ _ => h

/-- Whether the iteration ran to completion (so the loop re-prompts). -/
def StepResult.isCompleted : StepResult → Bool
  | .completed _ _ _ => true
  | _ => false

/-- One iteration of the `while True` loop of `main` (lines 56-126), given
the operator's query line and (when reached) decision line.  Mirrors the
source order: exit check, embedding, search, schema aggregation, prompt
build, chat completion, the two history appends, decision, execution
guarded by `try/except`. -/
def loopStep (env : Env) (conversation_history : List Msg)
    (user_query decision_line : String) : StepResult × List CallEvent :=
  if isExitCommand user_query then
    (StepResult.exited conversation_history, [])
  else
    match env.generate_embedding user_query with
    | Except.error e =>
        (StepResult.aborted conversation_history e,
         [CallEvent.embedCall user_query])
    | Except.ok search_vector =>
      let req := mkSearchRequest user_query search_vector
      match env.search req with
      | Except.error e =>
          (StepResult.aborted conversation_history e,
           [CallEvent.embedCall user_query, CallEvent.searchCall req])
      | Except.ok docs =>
        let table_list := docs.map SearchDoc.table_name
        let schema_str := aggregate env.process_schema table_list
        let prompt := buildPrompt user_query schema_str
        let baseTrace :=
          [CallEvent.embedCall user_query, CallEvent.searchCall req]
            ++ table_list.map CallEvent.schemaCall
            ++ [CallEvent.chatCall conversation_history prompt]
        match env.generate_chat_response conversation_history prompt
            system_message 1000 with
        | Except.error e =>
            (StepResult.aborted conversation_history e, baseTrace)
        | Except.ok content =>
          let history2 := conversation_history ++
            [⟨"user", user_query⟩, ⟨"assistant", content⟩]
          if get_run_query_decision decision_line = "yes" then
            match env.execute_and_fetch content with
            | Except.ok rows =>
                (StepResult.completed history2 content
                   (ExecOutcome.succeeded (pretty_print_results rows)),
                 baseTrace ++ [CallEvent.executeCall content])
            | Except.error e =>
                (StepResult.completed history2 content
                   (ExecOutcome.failed (execution_error_message e)),
                 baseTrace ++ [CallEvent.executeCall content])
          else
            (StepResult.completed history2 content ExecOutcome.skipped,
             baseTrace)

/-- The two operator lines of one turn. -/
structure TurnInput where
  query : String
  decision : String
deriving DecidableEq, Repr

/-- Run the loop over a list of turn inputs, returning the final
conversation history.  A completed turn continues with the grown history;
exit or an uncaught collaborator failure ends the session. -/
def sessionFrom (env : Env) (history : List Msg) : List TurnInput → List Msg
  | [] => history
  | t :: rest =>
    match loopStep env history t.query t.decision with
    | (StepResult.completed h2 _ _, _) => sessionFrom env h2 rest
    | (StepResult.exited h2, _) => h2
    | (StepResult.aborted h2 _, _) => h2

/-- The Retriever (lines 63-74): embed the query, then issue the hybrid
search request; either failure propagates. -/
def retrieve (env : Env) (user_query : String) : Except String (List SearchDoc) :=
  match env.generate_embedding user_query with
  | Except.error e => Except.error e
  | Except.ok search_vector => env.search (mkSearchRequest user_query search_vector)

/-- Contract of the search backend (spec section 6): it honours `top` and
returns hits ordered by non-increasing score. -/
def SearchContract (env : Env) : Prop :=
  ∀ req res, env.search req = Except.ok res →
    res.length ≤ req.top ∧
      List.Pairwise (fun a b => b.score ≤ a.score) res

/-- Default-valued projection out of `Except`. -/
def exceptD {α : Type} (d : α) : Except String α → α
  | Except.ok a => a
  | Except.error _ => d

/-- The embedding vector of a query (assuming the call succeeds). -/
def embedV (env : Env) (q : String) : List Rat :=
  exceptD [] (env.generate_embedding q)

/-- The search hits for a query (assuming the calls succeed). -/
def docsV (env : Env) (q : String) : List SearchDoc :=
  exceptD [] (env.search (mkSearchRequest q (embedV env q)))

/-- The aggregated schema block for a query (assuming the calls succeed). -/
def schemaStrV (env : Env) (q : String) : String :=
  aggregate env.process_schema ((docsV env q).map SearchDoc.table_name)

/-- The model's raw response for a query asked against history `h`
(assuming the calls succeed). -/
def chatV (env : Env) (h : List Msg) (q : String) : String :=
  exceptD ""
    (env.generate_chat_response h (buildPrompt q (schemaStrV env q)) system_message 1000)

/-- An environment in which embedding, search and chat never fail. -/
def EnvOk (env : Env) : Prop :=
  (∀ q, ∃ v, env.generate_embedding q = Except.ok v) ∧
  (∀ r, ∃ ds, env.search r = Except.ok ds) ∧
  (∀ h p s m, ∃ c, env.generate_chat_response h p s m = Except.ok c)

/-- The pairs of history entries appended by a run of completed turns
starting from history `h`: for each turn, the literal question as the user
entry and the model's raw response as the assistant entry. -/
def transcript (env : Env) (h : List Msg) : List TurnInput → List Msg
  | [] => []
  | t :: rest =>
    ⟨"user", t.query⟩ :: ⟨"assistant", chatV env h t.query⟩ ::
      transcript env
        (h ++ [⟨"user", t.query⟩, ⟨"assistant", chatV env h t.query⟩]) rest

/-- Push a character onto the first chunk of a split result. -/
def headCons (c : Char) : List (List Char) → List (List Char)
  | [] => [[c]]
  | p :: ps => (c :: p) :: ps

/-- Python's `s.split("\n\n")` at character level: greedy left-to-right
splitting on the blank-line separator. -/
def splitBlank : List Char → List (List Char)
  | [] => [[]]
  | [c] => [[c]]
  | c :: c2 :: rest =>
    if c = '\n' ∧ c2 = '\n' then
      [] :: splitBlank rest
    else
      headCons c (splitBlank (c2 :: rest))

/-- Whether a character list contains the blank-line separator `"\n\n"`. -/
def hasBlank : List Char → Bool
  | [] => false
  | [_] => false
  | c :: c2 :: rest =>
    (decide (c = '\n' ∧ c2 = '\n')) || hasBlank (c2 :: rest)

/-- The character-level bullet blocks of the aggregator: `"- "` followed by
the table's schema text, one block per table, in input order. -/
def blocksOf (process_schema : String → String) (tables : List String) :
    List (List Char) :=
  tables.map (fun t => '-' :: ' ' :: (process_schema t).data)

/-- Concatenate blocks with the blank-line separator between them. -/
def catBlocks : List (List Char) → List Char
  | [] => []
  | [b] => b
  | b :: bs => b ++ '\n' :: '\n' :: catBlocks bs

/-- Concrete environment: every collaborator succeeds. -/
def env0 : Env where
  generate_embedding := fun _ => Except.ok [1]
  search := fun _ => Except.ok [⟨"orders", 2⟩]
  process_schema := fun t => t ++ ": id int"
  generate_chat_response := fun _ _ _ _ => Except.ok "SELECT 1"
  execute_and_fetch := fun _ => Except.ok [⟨"row1", []⟩]

/-- Concrete environment: the embedding call fails. -/
def envE : Env where
  generate_embedding := fun _ => Except.error "embedding failure"
  search := fun _ => Except.ok []
  process_schema := fun t => t
  generate_chat_response := fun _ _ _ _ => Except.ok "SELECT 1"
  execute_and_fetch := fun _ => Except.ok []

/-- Concrete environment: the search call fails. -/
def envS : Env where
  generate_embedding := fun _ => Except.ok [1]
  search := fun _ => Except.error "search failure"
  process_schema := fun t => t
  generate_chat_response := fun _ _ _ _ => Except.ok "SELECT 1"
  execute_and_fetch := fun _ => Except.ok []

/-- Concrete environment: the chat-completion call fails. -/
def envC : Env where
  generate_embedding := fun _ => Except.ok [1]
  search := fun _ => Except.ok [⟨"orders", 2⟩]
  process_schema := fun t => t
  generate_chat_response := fun _ _ _ _ => Except.error "model failure"
  execute_and_fetch := fun _ => Except.ok []

/-- Concrete environment: synthesis succeeds but SQL execution raises. -/
def envX : Env where
  generate_embedding := fun _ => Except.ok [1]
  search := fun _ => Except.ok [⟨"orders", 2⟩]
  process_schema := fun t => t ++ ": id int"
  generate_chat_response := fun _ _ _ _ => Except.ok "SELECT 1"
  execute_and_fetch := fun _ => Except.error "incorrect syntax"

/-- Concrete environment: the search call returns an empty hit list. -/
def envZ : Env where
  generate_embedding := fun _ => Except.ok [1]
  search := fun _ => Except.ok []
  process_schema := fun t => t
  generate_chat_response := fun _ _ _ _ => Except.ok "SELECT 1"
  execute_and_fetch := fun _ => Except.ok []

/-- Concrete environment: a search backend honouring the top parameter. -/
def env7 : Env where
  generate_embedding := fun _ => Except.ok [1]
  search := fun req => Except.ok (if 1 ≤ req.top then [⟨"orders", 2⟩] else [])
  process_schema := fun t => t
  generate_chat_response := fun _ _ _ _ => Except.ok "SELECT 1"
  execute_and_fetch := fun _ => Except.ok []

/-- The call trace of a turn whose embedding, search and chat calls all
succeed (execution, when it happens, appends one more event). -/
def okTrace (env : Env) (h : List Msg) (q : String) (v : List Rat)
    (docs : List SearchDoc) : List CallEvent :=
  [CallEvent.embedCall q, CallEvent.searchCall (mkSearchRequest q v)]
    ++ (docs.map SearchDoc.table_name).map CallEvent.schemaCall
    ++ [CallEvent.chatCall h
          (buildPrompt q (aggregate env.process_schema (docs.map SearchDoc.table_name)))]

/- ======================= theorems ======================= -/

theorem isExitCommand_iff (q : String) :
    isExitCommand q = true ↔ (pyLower q = "exit" ∨ pyLower q = "quit") := by
  simp [isExitCommand, List.contains_cons]

theorem loopStep_exit (env : Env) (h : List Msg) (q d : String)
    (hq : isExitCommand q = true) :
    loopStep env h q d = (StepResult.exited h, []) := by
  simp [loopStep, hq]

theorem loopStep_embed_error (env : Env) (h : List Msg) (q d e : String)
    (hq : isExitCommand q = false)
    (hv : env.generate_embedding q = Except.error e) :
    loopStep env h q d = (StepResult.aborted h e, [CallEvent.embedCall q]) := by
  simp [loopStep, hq, hv]

theorem loopStep_search_error (env : Env) (h : List Msg) (q d : String)
    (v : List Rat) (e : String)
    (hq : isExitCommand q = false)
    (hv : env.generate_embedding q = Except.ok v)
    (hs : env.search (mkSearchRequest q v) = Except.error e) :
    loopStep env h q d =
      (StepResult.aborted h e,
       [CallEvent.embedCall q, CallEvent.searchCall (mkSearchRequest q v)]) := by
  simp [loopStep, hq, hv, hs]

theorem loopStep_chat_error (env : Env) (h : List Msg) (q d : String)
    (v : List Rat) (docs : List SearchDoc) (e : String)
    (hq : isExitCommand q = false)
    (hv : env.generate_embedding q = Except.ok v)
    (hs : env.search (mkSearchRequest q v) = Except.ok docs)
    (hc : env.generate_chat_response h
        (buildPrompt q (aggregate env.process_schema (docs.map SearchDoc.table_name)))
        system_message 1000 = Except.error e) :
    loopStep env h q d = (StepResult.aborted h e, okTrace env h q v docs) := by
  simp [loopStep, hq, hv, hs, hc, okTrace]

theorem loopStep_ok_skip (env : Env) (h : List Msg) (q d : String)
    (v : List Rat) (docs : List SearchDoc) (c : String)
    (hq : isExitCommand q = false)
    (hv : env.generate_embedding q = Except.ok v)
    (hs : env.search (mkSearchRequest q v) = Except.ok docs)
    (hc : env.generate_chat_response h
        (buildPrompt q (aggregate env.process_schema (docs.map SearchDoc.table_name)))
        system_message 1000 = Except.ok c)
    (hno : get_run_query_decision d ≠ "yes") :
    loopStep env h q d =
      (StepResult.completed (h ++ [⟨"user", q⟩, ⟨"assistant", c⟩]) c ExecOutcome.skipped,
       okTrace env h q v docs) := by
  simp [loopStep, hq, hv, hs, hc, hno, okTrace]

theorem loopStep_ok_exec_ok (env : Env) (h : List Msg) (q d : String)
    (v : List Rat) (docs : List SearchDoc) (c : String) (rows : List Row)
    (hq : isExitCommand q = false)
    (hv : env.generate_embedding q = Except.ok v)
    (hs : env.search (mkSearchRequest q v) = Except.ok docs)
    (hc : env.generate_chat_response h
        (buildPrompt q (aggregate env.process_schema (docs.map SearchDoc.table_name)))
        system_message 1000 = Except.ok c)
    (hyes : get_run_query_decision d = "yes")
    (hex : env.execute_and_fetch c = Except.ok rows) :
    loopStep env h q d =
      (StepResult.completed (h ++ [⟨"user", q⟩, ⟨"assistant", c⟩]) c
         (ExecOutcome.succeeded (pretty_print_results rows)),
       okTrace env h q v docs ++ [CallEvent.executeCall c]) := by
  simp [loopStep, hq, hv, hs, hc, hyes, hex, okTrace]

theorem loopStep_ok_exec_error (env : Env) (h : List Msg) (q d : String)
    (v : List Rat) (docs : List SearchDoc) (c e : String)
    (hq : isExitCommand q = false)
    (hv : env.generate_embedding q = Except.ok v)
    (hs : env.search (mkSearchRequest q v) = Except.ok docs)
    (hc : env.generate_chat_response h
        (buildPrompt q (aggregate env.process_schema (docs.map SearchDoc.table_name)))
        system_message 1000 = Except.ok c)
    (hyes : get_run_query_decision d = "yes")
    (hex : env.execute_and_fetch c = Except.error e) :
    loopStep env h q d =
      (StepResult.completed (h ++ [⟨"user", q⟩, ⟨"assistant", c⟩]) c
         (ExecOutcome.failed (execution_error_message e)),
       okTrace env h q v docs ++ [CallEvent.executeCall c]) := by
  simp [loopStep, hq, hv, hs, hc, hyes, hex, okTrace]

theorem chatV_eq (env : Env) (h : List Msg) (q : String)
    (v : List Rat) (docs : List SearchDoc) (c : String)
    (hv : env.generate_embedding q = Except.ok v)
    (hs : env.search (mkSearchRequest q v) = Except.ok docs)
    (hc : env.generate_chat_response h
        (buildPrompt q (aggregate env.process_schema (docs.map SearchDoc.table_name)))
        system_message 1000 = Except.ok c) :
    chatV env h q = c := by
  rw [chatV, schemaStrV, docsV, embedV, hv]
  simp only [exceptD, hs, hc]

theorem loopStep_envOk (env : Env) (h : List Msg) (q d : String)
    (hok : EnvOk env) (hq : isExitCommand q = false) :
    (loopStep env h q d).1.historyOf =
      h ++ [⟨"user", q⟩, ⟨"assistant", chatV env h q⟩] ∧
    (loopStep env h q d).1.isCompleted = true := by
  obtain ⟨he, hs, hc⟩ := hok
  obtain ⟨v, hv⟩ := he q
  obtain ⟨docs, hdocs⟩ := hs (mkSearchRequest q v)
  obtain ⟨c, hcc⟩ := hc h
    (buildPrompt q (aggregate env.process_schema (docs.map SearchDoc.table_name)))
    system_message 1000
  have hcv : chatV env h q = c := chatV_eq env h q v docs c hv hdocs hcc
  by_cases hdec : get_run_query_decision d = "yes"
  · cases hex : env.execute_and_fetch c with
    | ok rows =>
        rw [loopStep_ok_exec_ok env h q d v docs c rows hq hv hdocs hcc hdec hex, hcv]
        exact ⟨rfl, rfl⟩
    | error e =>
        rw [loopStep_ok_exec_error env h q d v docs c e hq hv hdocs hcc hdec hex, hcv]
        exact ⟨rfl, rfl⟩
  · rw [loopStep_ok_skip env h q d v docs c hq hv hdocs hcc hdec, hcv]
    exact ⟨rfl, rfl⟩

theorem isCompleted_shape (r : StepResult) (hr : r.isCompleted = true) :
    ∃ h2 c out, r = StepResult.completed h2 c out := by
  cases r with
  | exited h => simp [StepResult.isCompleted] at hr
  | aborted h e => simp [StepResult.isCompleted] at hr
  | completed h c out => exact ⟨h, c, out, rfl⟩

theorem sessionFrom_completed (env : Env) (h : List Msg) (t : TurnInput)
    (rest : List TurnInput) (h2 : List Msg) (c : String) (out : ExecOutcome)
    (tr : List CallEvent)
    (hstep : loopStep env h t.query t.decision = (StepResult.completed h2 c out, tr)) :
    sessionFrom env h (t :: rest) = sessionFrom env h2 rest := by
  simp [sessionFrom, hstep]

theorem sessionFrom_envOk (env : Env) (hok : EnvOk env) :
    ∀ (inputs : List TurnInput) (h : List Msg),
      (∀ t ∈ inputs, isExitCommand t.query = false) →
      sessionFrom env h inputs = h ++ transcript env h inputs := by
  intro inputs
  induction inputs with
  | nil => intro h _; simp [sessionFrom, transcript]
  | cons t rest ih =>
    intro h hexit
    have hq : isExitCommand t.query = false := hexit t (List.mem_cons_self t rest)
    obtain ⟨hhist, hcomp⟩ := loopStep_envOk env h t.query t.decision hok hq
    obtain ⟨h2, c, out, hr⟩ := isCompleted_shape _ hcomp
    have hh2 : h2 = h ++ [⟨"user", t.query⟩, ⟨"assistant", chatV env h t.query⟩] := by
      rw [hr] at hhist; exact hhist.symm ▸ rfl
    have hstep : loopStep env h t.query t.decision =
        (StepResult.completed h2 c out, (loopStep env h t.query t.decision).2) := by
      rw [← hr]
    rw [sessionFrom_completed env h t rest h2 c out _ hstep]
    rw [ih h2 (fun u hu => hexit u (List.mem_cons_of_mem t hu))]
    rw [hh2, transcript]
    simp

theorem transcript_length (env : Env) :
    ∀ (inputs : List TurnInput) (h : List Msg),
      (transcript env h inputs).length = 2 * inputs.length := by
  intro inputs
  induction inputs with
  | nil => intro h; simp [transcript]
  | cons t rest ih =>
      intro h
      simp only [transcript, List.length_cons, ih, List.length_cons]
      ring

theorem transcript_getElem_user (env : Env) :
    ∀ (inputs : List TurnInput) (h : List Msg) (i : Nat) (hi : i < inputs.length),
      (transcript env h inputs)[2 * i]? = some ⟨"user", inputs[i].query⟩ := by
  intro inputs
  induction inputs with
  | nil => intro h i hi; simp at hi
  | cons t rest ih =>
      intro h i hi
      cases i with
      | zero => simp [transcript]
      | succ j =>
          have h2 : 2 * (j + 1) = 2 * j + 1 + 1 := by ring
          rw [h2, transcript]
          rw [List.getElem?_cons_succ, List.getElem?_cons_succ]
          rw [ih _ j (by simpa using Nat.lt_of_succ_lt_succ hi)]
          simp

theorem transcript_getElem_assistant (env : Env) :
    ∀ (inputs : List TurnInput) (h : List Msg) (i : Nat) (hi : i < inputs.length),
      (transcript env h inputs)[2 * i + 1]? =
        some ⟨"assistant",
          chatV env (h ++ transcript env h (inputs.take i)) (inputs[i].query)⟩ := by
  intro inputs
  induction inputs with
  | nil => intro h i hi; simp at hi
  | cons t rest ih =>
      intro h i hi
      cases i with
      | zero => simp [transcript]
      | succ j =>
          have h2 : 2 * (j + 1) + 1 = 2 * j + 1 + 1 + 1 := by ring
          rw [h2, transcript]
          rw [List.getElem?_cons_succ, List.getElem?_cons_succ]
          rw [ih _ j (by simpa using Nat.lt_of_succ_lt_succ hi)]
          simp [transcript, List.append_assoc]

theorem buildPrompt_ne (q s : String) : buildPrompt q s ≠ q := by
  intro hcontra
  have h2 := congrArg String.length hcontra
  rw [buildPrompt] at h2
  simp only [String.length_append] at h2
  have h3 : 0 <
      ("Based on the multiple database schemas below, first\n        select the best database schema based on the query ").length := by
    decide
  omega

/-- C1: in an environment where the collaborator calls succeed, after N
completed query/synthesis turns the conversation history has exactly
1 + 2N entries: the single system turn first, then for each turn i a user
entry holding the literal i-th question and an assistant entry holding the
model's raw response for that turn; the question recorded is not the
schema-augmented prompt (the prompt never equals the question). -/
theorem c1_history_shape (env : Env) (inputs : List TurnInput)
    (hok : EnvOk env)
    (hexit : ∀ t ∈ inputs, isExitCommand t.query = false) :
    (sessionFrom env initial_conversation_history inputs).length = 1 + 2 * inputs.length ∧
    (sessionFrom env initial_conversation_history inputs)[0]? =
      some ⟨"system", system_message⟩ ∧
    (∀ i (hi : i < inputs.length),
      (sessionFrom env initial_conversation_history inputs)[2 * i + 1]? =
        some ⟨"user", inputs[i].query⟩ ∧
      (sessionFrom env initial_conversation_history inputs)[2 * i + 2]? =
        some ⟨"assistant",
          chatV env (sessionFrom env initial_conversation_history (inputs.take i))
            (inputs[i].query)⟩) ∧
    (∀ q s, buildPrompt q s ≠ q) := by
  have hsess := sessionFrom_envOk env hok inputs initial_conversation_history hexit
  have hcons : sessionFrom env initial_conversation_history inputs =
      ⟨"system", system_message⟩ :: transcript env initial_conversation_history inputs := by
    rw [hsess]; rfl
  refine ⟨?_, ?_, ?_, fun q s => buildPrompt_ne q s⟩
  · rw [hcons]
    simp only [List.length_cons, transcript_length]
    ring
  · rw [hcons]
    simp
  · intro i hi
    constructor
    · rw [hcons, List.getElem?_cons_succ]
      exact transcript_getElem_user env inputs initial_conversation_history i hi
    · rw [hcons]
      have h2 : 2 * i + 2 = 2 * i + 1 + 1 := by ring
      rw [h2, List.getElem?_cons_succ]
      rw [transcript_getElem_assistant env inputs initial_conversation_history i hi]
      rw [sessionFrom_envOk env hok (inputs.take i) initial_conversation_history
        (fun u hu => hexit u (List.mem_of_mem_take hu))]

/-- Witness for C1 at a concrete environment and a single turn. -/
theorem c1_history_shape_witness :
    (sessionFrom env0 initial_conversation_history [⟨"show tables", "no"⟩]).length = 1 + 2 * 1 ∧
    (sessionFrom env0 initial_conversation_history [⟨"show tables", "no"⟩])[1]? =
      some ⟨"user", "show tables"⟩ := by
  have h := c1_history_shape env0 [⟨"show tables", "no"⟩]
    ⟨fun _ => ⟨[1], rfl⟩, fun _ => ⟨[⟨"orders", 2⟩], rfl⟩, fun _ _ _ _ => ⟨"SELECT 1", rfl⟩⟩
    (by decide)
  refine ⟨h.1, ?_⟩
  have h2 := (h.2.2.1 0 (by decide)).1
  simpa using h2

theorem splitBlank_sep_cons (rest : List Char) :
    splitBlank ('\n' :: '\n' :: rest) = [] :: splitBlank rest := by
  simp [splitBlank]

theorem hasBlank_cons_ne (c : Char) (s : List Char) (hc : c ≠ '\n') :
    hasBlank (c :: s) = hasBlank s := by
  cases s with
  | nil => simp [hasBlank]
  | cons c2 s2 => simp [hasBlank, hc]

theorem splitBlank_no_blank :
    ∀ (p : List Char), hasBlank p = false → splitBlank p = [p] := by
  intro p
  induction p with
  | nil => intro _; rfl
  | cons c p2 ih =>
      intro hp
      cases p2 with
      | nil => rfl
      | cons c2 rest =>
          simp only [hasBlank, Bool.or_eq_false_iff, decide_eq_false_iff_not] at hp
          rw [splitBlank, if_neg hp.1, ih hp.2]
          rfl

theorem splitBlank_append :
    ∀ (p rest : List Char), hasBlank p = false → p.getLast? ≠ some '\n' →
      splitBlank (p ++ '\n' :: '\n' :: rest) = p :: splitBlank rest := by
  intro p rest
  induction p with
  | nil =>
      intro _ _
      simp [splitBlank_sep_cons]
  | cons c p2 ih =>
      intro hp hl
      cases p2 with
      | nil =>
          have hc : c ≠ '\n' := by
            intro hcc
            exact hl (by simp [hcc])
          have hcond : ¬(c = '\n' ∧ ('\n' : Char) = '\n') := fun hx => hc hx.1
          simp only [List.cons_append, List.nil_append]
          rw [splitBlank, if_neg hcond, splitBlank_sep_cons]
          rfl
      | cons c2 p3 =>
          simp only [hasBlank, Bool.or_eq_false_iff, decide_eq_false_iff_not] at hp
          rw [List.getLast?_cons_cons] at hl
          have hrec := ih hp.2 hl
          simp only [List.cons_append] at hrec ⊢
          rw [splitBlank, if_neg hp.1, hrec]
          rfl

theorem aggregate_data (f : String → String) :
    ∀ (xs : List String) (x : String),
      (aggregate f (x :: xs)).data = catBlocks (blocksOf f (x :: xs)) := by
  intro xs
  induction xs with
  | nil =>
      intro x
      have hd1 : ("- " : String).data = ['-', ' '] := rfl
      simp [aggregate, joinSep, blocksOf, catBlocks, String.data_append, hd1]
  | cons y ys ih =>
      intro x
      have ihy := ih y
      have hd1 : ("- " : String).data = ['-', ' '] := rfl
      have hd2 : ("\n\n- " : String).data = ['\n', '\n', '-', ' '] := rfl
      simp only [aggregate, List.map_cons, joinSep, String.data_append, blocksOf] at ihy ⊢
      simp only [List.map_cons, catBlocks]
      rw [← ihy]
      simp [List.append_assoc]

theorem block_clean (s : List Char) (h1 : hasBlank s = false)
    (h2 : s.getLast? ≠ some '\n') :
    hasBlank ('-' :: ' ' :: s) = false ∧ ('-' :: ' ' :: s).getLast? ≠ some '\n' := by
  constructor
  · rw [hasBlank_cons_ne '-' (' ' :: s) (by decide),
      hasBlank_cons_ne ' ' s (by decide)]
    exact h1
  · cases s with
    | nil => decide
    | cons c s2 =>
        rw [List.getLast?_cons_cons, List.getLast?_cons_cons]
        exact h2

theorem splitBlank_catBlocks :
    ∀ (bs : List (List Char)), bs ≠ [] →
      (∀ b ∈ bs, hasBlank b = false ∧ b.getLast? ≠ some '\n') →
      splitBlank (catBlocks bs) = bs := by
  intro bs
  induction bs with
  | nil => intro hne; exact absurd rfl hne
  | cons b bs2 ih =>
      intro _ hclean
      cases bs2 with
      | nil =>
          exact splitBlank_no_blank b (hclean b (List.mem_cons_self b [])).1
      | cons b2 bs3 =>
          have hb := hclean b (List.mem_cons_self b (b2 :: bs3))
          have hcat : catBlocks (b :: b2 :: bs3) =
              b ++ '\n' :: '\n' :: catBlocks (b2 :: bs3) := rfl
          rw [hcat, splitBlank_append b _ hb.1 hb.2]
          rw [ih (List.cons_ne_nil b2 bs3) (fun u hu => hclean u (List.mem_cons_of_mem b hu))]

/-- C2: for every non-empty list of retrieved table names whose schema
strings contain no blank-line separator and do not end in a newline, the
aggregated block splits on the blank-line separator into exactly one
bullet-prefixed block per table name, in input order, and the number of
recovered blocks equals the number of input table names. -/
theorem c2_schema_aggregator (process_schema : String → String)
    (tables : List String) (hne : tables ≠ [])
    (hclean : ∀ t ∈ tables, hasBlank (process_schema t).data = false ∧
      (process_schema t).data.getLast? ≠ some '\n') :
    splitBlank (aggregate process_schema tables).data = blocksOf process_schema tables ∧
    (splitBlank (aggregate process_schema tables).data).length = tables.length := by
  obtain ⟨x, xs, rfl⟩ : ∃ x xs, tables = x :: xs := by
    cases tables with
    | nil => exact absurd rfl hne
    | cons x xs => exact ⟨x, xs, rfl⟩
  have h1 : splitBlank (aggregate process_schema (x :: xs)).data =
      blocksOf process_schema (x :: xs) := by
    rw [aggregate_data]
    apply splitBlank_catBlocks
    · simp [blocksOf]
    · intro b hb
      simp only [blocksOf, List.mem_map] at hb
      obtain ⟨t, ht, rfl⟩ := hb
      obtain ⟨hH, hL⟩ := hclean t ht
      exact block_clean _ hH hL
  refine ⟨h1, ?_⟩
  rw [h1]
  simp [blocksOf]

/-- Witness for C2 at two concrete tables. -/
theorem c2_schema_aggregator_witness :
    splitBlank (aggregate (fun t => t ++ ": id int") ["orders", "customers"]).data =
      blocksOf (fun t => t ++ ": id int") ["orders", "customers"] ∧
    (splitBlank (aggregate (fun t => t ++ ": id int") ["orders", "customers"]).data).length = 2 :=
  c2_schema_aggregator (fun t => t ++ ": id int") ["orders", "customers"]
    (by decide) (by decide)

/-- C3 counterexample: with zero retrieved tables the aggregated grounding
context is the bare bullet string "- ", not the empty string. -/
theorem c3_counterexample :
    aggregate (fun _ => "") [] = "- " ∧ aggregate (fun _ => "") [] ≠ "" :=
  ⟨rfl, by decide⟩

/-- C3 (amended): for a turn in which the search returns zero candidates,
the grounding context assembled by the aggregator is the two-character
bullet string "- " (not the empty string), and synthesis still proceeds
with it: the chat model is invoked on the prompt built from that bare
bullet block and the turn completes with no special-case guard. -/
theorem c3_empty_retrieval (env : Env) (h : List Msg) (q d : String)
    (v : List Rat) (c : String)
    (hq : isExitCommand q = false)
    (hv : env.generate_embedding q = Except.ok v)
    (hs : env.search (mkSearchRequest q v) = Except.ok [])
    (hc : env.generate_chat_response h
        (buildPrompt q (aggregate env.process_schema []))
        system_message 1000 = Except.ok c) :
    aggregate env.process_schema [] = "- " ∧
    CallEvent.chatCall h (buildPrompt q (aggregate env.process_schema [])) ∈
      (loopStep env h q d).2 ∧
    (loopStep env h q d).1.isCompleted = true := by
  have key : CallEvent.chatCall h (buildPrompt q (aggregate env.process_schema [])) ∈
      (loopStep env h q d).2 ∧ (loopStep env h q d).1.isCompleted = true := by
    by_cases hdec : get_run_query_decision d = "yes"
    · cases hex : env.execute_and_fetch c with
      | ok rows =>
          rw [loopStep_ok_exec_ok env h q d v [] c rows hq hv hs hc hdec hex]
          exact ⟨by simp [okTrace], rfl⟩
      | error e =>
          rw [loopStep_ok_exec_error env h q d v [] c e hq hv hs hc hdec hex]
          exact ⟨by simp [okTrace], rfl⟩
    · rw [loopStep_ok_skip env h q d v [] c hq hv hs hc hdec]
      exact ⟨by simp [okTrace], rfl⟩
  exact ⟨rfl, key.1, key.2⟩

/-- Witness for the amended C3 at a concrete environment whose search
returns no hits. -/
theorem c3_empty_retrieval_witness :
    aggregate envZ.process_schema [] = "- " ∧
    CallEvent.chatCall initial_conversation_history
      (buildPrompt "show tables" (aggregate envZ.process_schema [])) ∈
      (loopStep envZ initial_conversation_history "show tables" "no").2 ∧
    (loopStep envZ initial_conversation_history "show tables" "no").1.isCompleted = true :=
  c3_empty_retrieval envZ initial_conversation_history "show tables" "no" [1] "SELECT 1"
    (by decide) rfl rfl rfl

/-- C4: a query line that case-insensitively equals "exit" or "quit" ends
the session with no collaborator call (empty trace) and the conversation
history unmodified; the remaining input is never processed. -/
theorem c4_exit_command (env : Env) (h : List Msg) (q d : String)
    (hq : pyLower q = "exit" ∨ pyLower q = "quit") :
    loopStep env h q d = (StepResult.exited h, []) ∧
    (∀ rest, sessionFrom env h (⟨q, d⟩ :: rest) = h) := by
  have hb : isExitCommand q = true := (isExitCommand_iff q).mpr hq
  have hstep := loopStep_exit env h q d hb
  refine ⟨hstep, ?_⟩
  intro rest
  simp [sessionFrom, hstep]

/-- Witness for C4 at the uppercase line "EXIT". -/
theorem c4_exit_command_witness :
    loopStep env0 initial_conversation_history "EXIT" "" =
      (StepResult.exited initial_conversation_history, []) ∧
    sessionFrom env0 initial_conversation_history [⟨"EXIT", ""⟩] =
      initial_conversation_history := by
  have h := c4_exit_command env0 initial_conversation_history "EXIT" "" (by decide)
  exact ⟨h.1, h.2 []⟩

theorem executeCall_not_mem_okTrace (env : Env) (h : List Msg) (q : String)
    (v : List Rat) (docs : List SearchDoc) (s : String) :
    CallEvent.executeCall s ∉ okTrace env h q v docs := by
  simp [okTrace]

/-- C5: the execution decision is the operator's line with surrounding
whitespace stripped and lowercased; the synthesized SQL text is forwarded
verbatim to execute_and_fetch exactly when that normalized line is "yes",
in which case a successful execution prints each returned row's first
column; any other line performs no execution call, the turn completes in
the skipped state, and the loop goes on to the next query. -/
theorem c5_execution_decision (env : Env) (h : List Msg) (q d : String)
    (v : List Rat) (docs : List SearchDoc) (c : String)
    (hq : isExitCommand q = false)
    (hv : env.generate_embedding q = Except.ok v)
    (hs : env.search (mkSearchRequest q v) = Except.ok docs)
    (hc : env.generate_chat_response h
        (buildPrompt q (aggregate env.process_schema (docs.map SearchDoc.table_name)))
        system_message 1000 = Except.ok c) :
    get_run_query_decision d = pyLower (pyStrip d) ∧
    ((∃ s, CallEvent.executeCall s ∈ (loopStep env h q d).2) ↔
      get_run_query_decision d = "yes") ∧
    (get_run_query_decision d = "yes" →
      CallEvent.executeCall c ∈ (loopStep env h q d).2 ∧
      ∀ rows, env.execute_and_fetch c = Except.ok rows →
        (loopStep env h q d).1 =
          StepResult.completed (h ++ [⟨"user", q⟩, ⟨"assistant", c⟩]) c
            (ExecOutcome.succeeded (rows.map (fun r => "- " ++ r.first)))) ∧
    (get_run_query_decision d ≠ "yes" →
      (∀ s, CallEvent.executeCall s ∉ (loopStep env h q d).2) ∧
      (loopStep env h q d).1 =
        StepResult.completed (h ++ [⟨"user", q⟩, ⟨"assistant", c⟩]) c ExecOutcome.skipped ∧
      ∀ rest, sessionFrom env h (⟨q, d⟩ :: rest) =
        sessionFrom env (h ++ [⟨"user", q⟩, ⟨"assistant", c⟩]) rest) := by
  by_cases hdec : get_run_query_decision d = "yes"
  · cases hex : env.execute_and_fetch c with
    | ok rows =>
        have hstep := loopStep_ok_exec_ok env h q d v docs c rows hq hv hs hc hdec hex
        refine ⟨rfl, ?_, ?_, fun hne => absurd hdec hne⟩
        · exact ⟨fun _ => hdec, fun _ => ⟨c, by rw [hstep]; simp⟩⟩
        · intro _
          refine ⟨by rw [hstep]; simp, ?_⟩
          intro rows2 hex2
          injection hex2 with hr
          subst hr
          rw [hstep]
          rfl
    | error e =>
        have hstep := loopStep_ok_exec_error env h q d v docs c e hq hv hs hc hdec hex
        refine ⟨rfl, ?_, ?_, fun hne => absurd hdec hne⟩
        · exact ⟨fun _ => hdec, fun _ => ⟨c, by rw [hstep]; simp⟩⟩
        · intro _
          refine ⟨by rw [hstep]; simp, ?_⟩
          intro rows2 hex2
          exact Except.noConfusion hex2
  · have hstep := loopStep_ok_skip env h q d v docs c hq hv hs hc hdec
    refine ⟨rfl, ?_, fun hy => absurd hy hdec, ?_⟩
    · constructor
      · rintro ⟨s, hsmem⟩
        rw [hstep] at hsmem
        exact absurd hsmem (executeCall_not_mem_okTrace env h q v docs s)
      · intro hy
        exact absurd hy hdec
    · intro _
      refine ⟨?_, by rw [hstep], ?_⟩
      · intro s hsmem
        rw [hstep] at hsmem
        exact executeCall_not_mem_okTrace env h q v docs s hsmem
      · intro rest
        exact sessionFrom_completed env h ⟨q, d⟩ rest _ c _ _ hstep

/-- Witness for C5: a confirmed "yes" (with whitespace and uppercase)
executes the synthesized SQL verbatim and prints the rows. -/
theorem c5_execution_decision_witness :
    CallEvent.executeCall "SELECT 1" ∈
      (loopStep env0 initial_conversation_history "show tables" " YES ").2 ∧
    (loopStep env0 initial_conversation_history "show tables" " YES ").1 =
      StepResult.completed
        (initial_conversation_history ++
          [⟨"user", "show tables"⟩, ⟨"assistant", "SELECT 1"⟩]) "SELECT 1"
        (ExecOutcome.succeeded ["- row1"]) := by
  have h := c5_execution_decision env0 initial_conversation_history "show tables" " YES "
    [1] [⟨"orders", 2⟩] "SELECT 1" (by decide) rfl rfl rfl
  obtain ⟨hmem, hrows⟩ := h.2.2.1 (by decide)
  exact ⟨hmem, hrows [⟨"row1", []⟩] rfl⟩

/-- C6: when the confirmed execution raises, the step still completes: the
outcome is a logged failure whose message ends with the exception detail,
the appended history is kept, and the session goes on to the next query;
embedding, search and chat-completion failures, by contrast, abort. -/
theorem c6_execution_failure_recovery (env : Env) (h : List Msg) (q d : String)
    (v : List Rat) (docs : List SearchDoc) (c : String)
    (hq : isExitCommand q = false)
    (hv : env.generate_embedding q = Except.ok v)
    (hs : env.search (mkSearchRequest q v) = Except.ok docs)
    (hc : env.generate_chat_response h
        (buildPrompt q (aggregate env.process_schema (docs.map SearchDoc.table_name)))
        system_message 1000 = Except.ok c)
    (hyes : get_run_query_decision d = "yes")
    (e : String)
    (hex : env.execute_and_fetch c = Except.error e) :
    (loopStep env h q d).1 =
      StepResult.completed (h ++ [⟨"user", q⟩, ⟨"assistant", c⟩]) c
        (ExecOutcome.failed (execution_error_message e)) ∧
    execution_error_message e =
      "\nThere seems to be an issue with this query. Please verify the query.\n" ++ e ∧
    (∀ rest, sessionFrom env h (⟨q, d⟩ :: rest) =
      sessionFrom env (h ++ [⟨"user", q⟩, ⟨"assistant", c⟩]) rest) ∧
    (∀ (env2 : Env) h2 q2 d2 e2, isExitCommand q2 = false →
      env2.generate_embedding q2 = Except.error e2 →
      (loopStep env2 h2 q2 d2).1 = StepResult.aborted h2 e2) ∧
    (∀ (env2 : Env) h2 q2 d2 v2 e2, isExitCommand q2 = false →
      env2.generate_embedding q2 = Except.ok v2 →
      env2.search (mkSearchRequest q2 v2) = Except.error e2 →
      (loopStep env2 h2 q2 d2).1 = StepResult.aborted h2 e2) ∧
    (∀ (env2 : Env) h2 q2 d2 v2 docs2 e2, isExitCommand q2 = false →
      env2.generate_embedding q2 = Except.ok v2 →
      env2.search (mkSearchRequest q2 v2) = Except.ok docs2 →
      env2.generate_chat_response h2
        (buildPrompt q2 (aggregate env2.process_schema (docs2.map SearchDoc.table_name)))
        system_message 1000 = Except.error e2 →
      (loopStep env2 h2 q2 d2).1 = StepResult.aborted h2 e2) := by
  have hstep := loopStep_ok_exec_error env h q d v docs c e hq hv hs hc hyes hex
  refine ⟨by rw [hstep], rfl, ?_, ?_, ?_, ?_⟩
  · intro rest
    exact sessionFrom_completed env h ⟨q, d⟩ rest _ c _ _ hstep
  · intro env2 h2 q2 d2 e2 hq2 hv2
    rw [loopStep_embed_error env2 h2 q2 d2 e2 hq2 hv2]
  · intro env2 h2 q2 d2 v2 e2 hq2 hv2 hs2
    rw [loopStep_search_error env2 h2 q2 d2 v2 e2 hq2 hv2 hs2]
  · intro env2 h2 q2 d2 v2 docs2 e2 hq2 hv2 hs2 hc2
    rw [loopStep_chat_error env2 h2 q2 d2 v2 docs2 e2 hq2 hv2 hs2 hc2]

/-- Witness for C6: a failing execution is caught and logged with the
exception detail, and the turn still completes. -/
theorem c6_execution_failure_recovery_witness :
    (loopStep envX initial_conversation_history "show tables" "yes").1 =
      StepResult.completed
        (initial_conversation_history ++
          [⟨"user", "show tables"⟩, ⟨"assistant", "SELECT 1"⟩]) "SELECT 1"
        (ExecOutcome.failed (execution_error_message "incorrect syntax")) ∧
    execution_error_message "incorrect syntax" =
      "\nThere seems to be an issue with this query. Please verify the query.\n"
        ++ "incorrect syntax" := by
  have h := c6_execution_failure_recovery envX initial_conversation_history
    "show tables" "yes" [1] [⟨"orders", 2⟩] "SELECT 1"
    (by decide) rfl rfl rfl (by decide) "incorrect syntax" rfl
  exact ⟨h.1, h.2.1⟩

theorem env7_contract : SearchContract env7 := by
  intro req res hres
  have hr : (Except.ok
      (if 1 ≤ req.top then ([⟨"orders", 2⟩] : List SearchDoc) else []) :
        Except String (List SearchDoc)) =
      Except.ok res := hres
  injection hr with hr2
  subst hr2
  by_cases h1 : 1 ≤ req.top
  · rw [if_pos h1]
    exact ⟨by simpa using h1, by simp⟩
  · rw [if_neg h1]
    exact ⟨by simp, by simp⟩

/-- C7: for every non-empty query, under the backend contract the
Retriever returns at most 3 candidates (each a table name with a relevance
score) ordered by non-increasing score, and the request it issues is the
hybrid one: top=3 with a k=50 vector candidate pool and the semantic
rerank configuration. -/
theorem c7_retriever (env : Env) (q : String) (hq : q ≠ "")
    (hcon : SearchContract env) (res : List SearchDoc)
    (hres : retrieve env q = Except.ok res) :
    res.length ≤ 3 ∧
    List.Pairwise (fun a b => b.score ≤ a.score) res ∧
    ∃ v, env.generate_embedding q = Except.ok v ∧
      env.search (mkSearchRequest q v) = Except.ok res ∧
      (mkSearchRequest q v).top = 3 ∧
      (mkSearchRequest q v).k = 50 ∧
      (mkSearchRequest q v).query_type = "semantic" ∧
      (mkSearchRequest q v).semantic_configuration_name = "query-index-semantic-config" := by
  cases hv : env.generate_embedding q with
  | error e =>
      rw [retrieve, hv] at hres
      exact Except.noConfusion hres
  | ok v =>
      rw [retrieve, hv] at hres
      obtain ⟨hlen, hpair⟩ := hcon (mkSearchRequest q v) res hres
      exact ⟨hlen, hpair, v, rfl, hres, rfl, rfl, rfl, rfl⟩

/-- Witness for C7 at a concrete backend honouring the contract. -/
theorem c7_retriever_witness :
    ([⟨"orders", 2⟩] : List SearchDoc).length ≤ 3 ∧
    List.Pairwise (fun a b => SearchDoc.score b ≤ SearchDoc.score a)
      ([⟨"orders", 2⟩] : List SearchDoc) ∧
    ∃ v, env7.generate_embedding "customers" = Except.ok v ∧
      env7.search (mkSearchRequest "customers" v) = Except.ok [⟨"orders", 2⟩] ∧
      (mkSearchRequest "customers" v).top = 3 ∧
      (mkSearchRequest "customers" v).k = 50 ∧
      (mkSearchRequest "customers" v).query_type = "semantic" ∧
      (mkSearchRequest "customers" v).semantic_configuration_name =
        "query-index-semantic-config" :=
  c7_retriever env7 "customers" (by decide) env7_contract [⟨"orders", 2⟩] rfl

/-- C8: an embedding, search, or chat-completion failure is caught nowhere:
the step aborts with the conversation history exactly as it was before the
turn (no partial append of the user/assistant pair), and no further input
is processed by the session. -/
theorem c8_uncaught_failures (env : Env) (h : List Msg) (q d : String)
    (hq : isExitCommand q = false) :
    (∀ e, env.generate_embedding q = Except.error e →
      loopStep env h q d = (StepResult.aborted h e, [CallEvent.embedCall q]) ∧
      ∀ rest, sessionFrom env h (⟨q, d⟩ :: rest) = h) ∧
    (∀ v e, env.generate_embedding q = Except.ok v →
      env.search (mkSearchRequest q v) = Except.error e →
      (loopStep env h q d).1 = StepResult.aborted h e ∧
      ∀ rest, sessionFrom env h (⟨q, d⟩ :: rest) = h) ∧
    (∀ v docs e, env.generate_embedding q = Except.ok v →
      env.search (mkSearchRequest q v) = Except.ok docs →
      env.generate_chat_response h
        (buildPrompt q (aggregate env.process_schema (docs.map SearchDoc.table_name)))
        system_message 1000 = Except.error e →
      (loopStep env h q d).1 = StepResult.aborted h e ∧
      ∀ rest, sessionFrom env h (⟨q, d⟩ :: rest) = h) := by
  refine ⟨?_, ?_, ?_⟩
  · intro e hv
    have hstep := loopStep_embed_error env h q d e hq hv
    exact ⟨hstep, fun rest => by simp [sessionFrom, hstep]⟩
  · intro v e hv hs
    have hstep := loopStep_search_error env h q d v e hq hv hs
    exact ⟨by rw [hstep], fun rest => by simp [sessionFrom, hstep]⟩
  · intro v docs e hv hs hc
    have hstep := loopStep_chat_error env h q d v docs e hq hv hs hc
    exact ⟨by rw [hstep], fun rest => by simp [sessionFrom, hstep]⟩

/-- Witness for C8: a failing embedding call aborts the turn with the
history unchanged. -/
theorem c8_uncaught_failures_witness :
    loopStep envE initial_conversation_history "list users" "no" =
      (StepResult.aborted initial_conversation_history "embedding failure",
       [CallEvent.embedCall "list users"]) ∧
    sessionFrom envE initial_conversation_history [⟨"list users", "no"⟩] =
      initial_conversation_history := by
  have h := (c8_uncaught_failures envE initial_conversation_history "list users" "no"
    (by decide)).1 "embedding failure" rfl
  exact ⟨h.1, h.2 []⟩

/-- C9: the exit test lowercases the raw line but does not trim it and
requires an exact match; any other line, including whitespace-padded
"exit " or the empty line, is treated as a query: it is forwarded to the
embedding call and, when the embedding succeeds, to the search call. -/
theorem c9_exit_no_trim (env : Env) (h : List Msg) (q d : String)
    (hq : ¬(pyLower q = "exit" ∨ pyLower q = "quit")) :
    isExitCommand q = false ∧
    CallEvent.embedCall q ∈ (loopStep env h q d).2 ∧
    (∀ v, env.generate_embedding q = Except.ok v →
      CallEvent.searchCall (mkSearchRequest q v) ∈ (loopStep env h q d).2) := by
  have hb : isExitCommand q = false := by
    cases hbool : isExitCommand q with
    | false => rfl
    | true => exact absurd ((isExitCommand_iff q).mp hbool) hq
  refine ⟨hb, ?_⟩
  cases hv : env.generate_embedding q with
  | error e =>
      rw [loopStep_embed_error env h q d e hb hv]
      refine ⟨by simp, ?_⟩
      intro v hv2
      exact Except.noConfusion hv2
  | ok v =>
      cases hs : env.search (mkSearchRequest q v) with
      | error e =>
          rw [loopStep_search_error env h q d v e hb hv hs]
          refine ⟨by simp, ?_⟩
          intro v2 hv2
          injection hv2 with hveq
          subst hveq
          simp
      | ok docs =>
          cases hc : env.generate_chat_response h
              (buildPrompt q (aggregate env.process_schema (docs.map SearchDoc.table_name)))
              system_message 1000 with
          | error e =>
              rw [loopStep_chat_error env h q d v docs e hb hv hs hc]
              refine ⟨by simp [okTrace], ?_⟩
              intro v2 hv2
              injection hv2 with hveq
              subst hveq
              simp [okTrace]
          | ok c =>
              by_cases hdec : get_run_query_decision d = "yes"
              · cases hex : env.execute_and_fetch c with
                | ok rows =>
                    rw [loopStep_ok_exec_ok env h q d v docs c rows hb hv hs hc hdec hex]
                    refine ⟨by simp [okTrace], ?_⟩
                    intro v2 hv2
                    injection hv2 with hveq
                    subst hveq
                    simp [okTrace]
                | error e =>
                    rw [loopStep_ok_exec_error env h q d v docs c e hb hv hs hc hdec hex]
                    refine ⟨by simp [okTrace], ?_⟩
                    intro v2 hv2
                    injection hv2 with hveq
                    subst hveq
                    simp [okTrace]
              · rw [loopStep_ok_skip env h q d v docs c hb hv hs hc hdec]
                refine ⟨by simp [okTrace], ?_⟩
                intro v2 hv2
                injection hv2 with hveq
                subst hveq
                simp [okTrace]

/-- Witness for C9 at the whitespace-padded line "exit ". -/
theorem c9_exit_no_trim_witness :
    isExitCommand "exit " = false ∧
    CallEvent.embedCall "exit " ∈
      (loopStep env0 initial_conversation_history "exit " "no").2 := by
  have h := c9_exit_no_trim env0 initial_conversation_history "exit " "no" (by decide)
  exact ⟨h.1, h.2.1⟩

/-- C10: the user/assistant pair is appended before the execution decision
is read, and the execution branch never modifies the history: whatever the
decision line is, and whatever execute_and_fetch does, a completed turn's
history is exactly the input history plus the same two entries. -/
theorem c10_history_frame (env : Env) (h : List Msg) (q : String)
    (v : List Rat) (docs : List SearchDoc) (c : String)
    (hq : isExitCommand q = false)
    (hv : env.generate_embedding q = Except.ok v)
    (hs : env.search (mkSearchRequest q v) = Except.ok docs)
    (hc : env.generate_chat_response h
        (buildPrompt q (aggregate env.process_schema (docs.map SearchDoc.table_name)))
        system_message 1000 = Except.ok c) :
    ∀ d, (loopStep env h q d).1.historyOf =
        h ++ [⟨"user", q⟩, ⟨"assistant", c⟩] ∧
      (loopStep env h q d).1.isCompleted = true := by
  intro d
  by_cases hdec : get_run_query_decision d = "yes"
  · cases hex : env.execute_and_fetch c with
    | ok rows =>
        rw [loopStep_ok_exec_ok env h q d v docs c rows hq hv hs hc hdec hex]
        exact ⟨rfl, rfl⟩
    | error e =>
        rw [loopStep_ok_exec_error env h q d v docs c e hq hv hs hc hdec hex]
        exact ⟨rfl, rfl⟩
  · rw [loopStep_ok_skip env h q d v docs c hq hv hs hc hdec]
    exact ⟨rfl, rfl⟩

/-- Witness for C10: with a failing execution and a confirming decision,
the history still grows by exactly the user and assistant entries. -/
theorem c10_history_frame_witness :
    (loopStep envX initial_conversation_history "show tables" "yes").1.historyOf =
      initial_conversation_history ++
        [⟨"user", "show tables"⟩, ⟨"assistant", "SELECT 1"⟩] :=
  ((c10_history_frame envX initial_conversation_history "show tables"
    [1] [⟨"orders", 2⟩] "SELECT 1" (by decide) rfl rfl rfl) "yes").1
